import Mathlib

/-!
Verification of the segment-building and silence-trimming decision logic of
the songyang_tts_data pipeline.

The embedding models the pure decision logic of three Python scripts:

* process_video.py — scene-boundary list to content segments
  (detect_scenes_upper_half, lines 50-78);
* trim_silence_inplace.py — silence intervals to an in-place trim pass
  (trim_silence_inplace, lines 57-127) and the cumulative ledger update in
  main (lines 162-175);
* convert_to_mp3.py — the conversion-pass trim planner (main, lines
  109-137) and convert_to_mp3_trimmed (lines 53-80).

Timestamps and durations are rationals; the scripts' float constants
0.05, 0.1, 0.3, 0.4, 0.5 are the exact rationals 1/20, 1/10, 3/10, 2/5,
1/2.  External media probing is replaced by explicit arguments: the
detected silence list, the file's duration, and a flag telling whether the
ffmpeg transcode succeeds.
-/

namespace Songyang

/-- Scene-change timestamp list as assembled in detect_scenes_upper_half
(process_video.py lines 50-68): an implicit 0.0 up front, then the detected
boundary timestamps, then the total duration appended at the end. -/
def sceneTimes (boundaries : List ℚ) (duration : ℚ) : List ℚ :=
  0 :: boundaries ++ [duration]

/-- Consecutive pairs of a timestamp list: the candidate segments formed
between every adjacent pair of scene times (process_video.py lines 72-74). -/
def zipConsec : List ℚ → List (ℚ × ℚ)
  | a :: b :: rest => (a, b) :: zipConsec (b :: rest)
  | _ => []

/-- Segment list returned by detect_scenes_upper_half (process_video.py
lines 70-78): the candidate segments between adjacent scene times, keeping
only those of length at least 0.5 s. -/
def detect_scenes_segments (boundaries : List ℚ) (duration : ℚ) : List (ℚ × ℚ) :=
  (zipConsec (sceneTimes boundaries duration)).filter
    (fun p => decide (1/2 ≤ p.2 - p.1))

/-- Whether some segment of the list contains the time t. -/
def coversPoint (segs : List (ℚ × ℚ)) (t : ℚ) : Bool :=
  segs.any (fun p => decide (p.1 ≤ t ∧ t ≤ p.2))

/-- A silence interval as parsed by detect_silence_full
(trim_silence_inplace.py lines 11-44): a start time together with either a
concrete end time or none for an open-ended interval running to the end of
the file. -/
abbrev Silence := ℚ × Option ℚ

/-- Candidate leading trim (trim_silence_inplace.py lines 68-77): if the
first silence interval starts within 0.1 s of zero, trim to its end minus
0.05 s of padding, floored at 0.  An open end contributes 0, matching the
Python falsiness test on first_silence[1] (which also sends an end of
exactly 0.0 to 0, the same value). -/
def leadCandidate (silences : List Silence) : ℚ :=
  match silences.head? with
  | none => 0
  | some first =>
    if first.1 ≤ 1/10 then max 0 (first.2.getD 0 - 1/20) else 0

/-- Candidate trailing trim (trim_silence_inplace.py lines 79-87): if the
last silence interval is open-ended, or its concrete end lies within 0.1 s
of the file's duration, trim from its start keeping 0.1 s of padding,
floored at 0; otherwise 0. -/
def tailCandidate (silences : List Silence) (duration : ℚ) : ℚ :=
  match silences.getLast? with
  | none => 0
  | some last =>
    match last.2 with
    | none => max 0 (duration - last.1 - 1/10)
    | some e =>
      if duration - 1/10 ≤ e then max 0 (duration - last.1 - 1/10) else 0

/-- Leading trim clamped to 40% of the duration (trim_silence_inplace.py
lines 89-92). -/
def clampedLead (silences : List Silence) (duration : ℚ) : ℚ :=
  min (leadCandidate silences) (2/5 * duration)

/-- Trailing trim clamped to 40% of the duration (trim_silence_inplace.py
lines 89-93). -/
def clampedTail (silences : List Silence) (duration : ℚ) : ℚ :=
  min (tailCandidate silences duration) (2/5 * duration)

/-- The tuple returned by trim_silence_inplace: applied leading trim,
applied trailing trim, original duration, new duration. -/
structure TrimResult where
  trim_start : ℚ
  trim_end : ℚ
  original_duration : ℚ
  new_duration : ℚ
deriving DecidableEq

/-- One run of trim_silence_inplace (trim_silence_inplace.py lines 57-127)
on a file of duration d with detected silences s; ok tells whether the
ffmpeg transcode of the trimmed audio succeeds.  Returns the file's
duration after the run (the trimmed audio is written to a temporary file
and the original is replaced only on a successful transcode; on failure
the temporary file is deleted) together with the returned tuple.  An empty
silence list, the safety veto (fewer than 0.5 s would remain), trims that
are both at most 0.1 s, and a failed transcode all leave the file
untouched and report a zero trim. -/
def trimPass (s : List Silence) (d : ℚ) (ok : Bool) : ℚ × TrimResult :=
  if s = [] then (d, ⟨0, 0, d, d⟩)
  else if d - clampedLead s d - clampedTail s d < 1/2 then (d, ⟨0, 0, d, d⟩)
  else if 1/10 < clampedLead s d ∨ 1/10 < clampedTail s d then
    if ok then
      (d - clampedLead s d - clampedTail s d,
        ⟨clampedLead s d, clampedTail s d, d,
          d - clampedLead s d - clampedTail s d⟩)
    else (d, ⟨0, 0, d, d⟩)
  else (d, ⟨0, 0, d, d⟩)

/-- The per-clip manifest record fields touched by a trim pass
(trim_silence_inplace.py main, lines 162-175): current duration and the
cumulative lead and tail trims. -/
structure ClipRecord where
  duration : ℚ
  trimStartCum : ℚ
  trimEndCum : ℚ
deriving DecidableEq

/-- Ledger update in main (trim_silence_inplace.py lines 164-175): when
the pass reports a positive trim on either side, add the trims to the
cumulative totals and record the new duration; otherwise leave the record
as it is. -/
def applyPass (c : ClipRecord) (r : TrimResult) : ClipRecord :=
  if 0 < r.trim_start ∨ 0 < r.trim_end then
    ⟨r.new_duration, c.trimStartCum + r.trim_start, c.trimEndCum + r.trim_end⟩
  else c

/-- One full trim pass over a clip record: run trim_silence_inplace on the
clip's current media and apply the reported result to the ledger. -/
def ledgerStep (c : ClipRecord) (s : List Silence) (ok : Bool) : ClipRecord :=
  applyPass c (trimPass s c.duration ok).2

/-- Trim planning in convert_to_mp3.py main (lines 109-137): lead trim
from the first silence if it starts within 0.1 s of zero, keeping 0.1 s of
padding; tail trim only when silence extends to the end of file, i.e.
there are more silence starts than silence ends; both clamped to 30% of
the duration.  The elif on lines 127-132 is an explicit no-op. -/
def convert_plan (silence_starts silence_ends : List ℚ) (duration : ℚ) : ℚ × ℚ :=
  let start_trim :=
    if silence_starts ≠ [] ∧ 0 < silence_ends.length then
      if silence_starts.head?.getD 0 ≤ 1/10 then
        max 0 (silence_ends.head?.getD 0 - 1/10)
      else 0
    else 0
  let end_trim :=
    if silence_starts ≠ [] ∧ silence_ends.length < silence_starts.length then
      max 0 (duration - (silence_starts.getLast?.getD 0) - 1/10)
    else 0
  (min start_trim (3/10 * duration), min end_trim (3/10 * duration))

/-- convert_to_mp3_trimmed (convert_to_mp3.py lines 53-80): given the
file's duration and the requested trims, drop both trims when at most
0.5 s of audio would remain; returns the applied trims and the resulting
duration. -/
def convert_to_mp3_trimmed (duration start_trim end_trim : ℚ) : ℚ × ℚ × ℚ :=
  if duration - start_trim - end_trim ≤ 1/2 then (0, 0, duration)
  else (start_trim, end_trim, duration - start_trim - end_trim)

/-! ### Helper lemmas -/

lemma zipConsec_nil : zipConsec [] = [] := rfl

lemma zipConsec_single (a : ℚ) : zipConsec [a] = [] := rfl

lemma zipConsec_cons (a b : ℚ) (l : List ℚ) :
    zipConsec (a :: b :: l) = (a, b) :: zipConsec (b :: l) := rfl

lemma zipConsec_head_le (l : List ℚ) :
    ∀ x : ℚ, List.Chain' (· ≤ ·) (x :: l) →
      ∀ p ∈ zipConsec (x :: l), x ≤ p.1 := by
  induction l with
  | nil => intro x _ p hp; simp [zipConsec] at hp
  | cons y l ih =>
    intro x hc p hp
    rw [List.chain'_cons] at hc
    simp only [zipConsec, List.mem_cons] at hp
    rcases hp with rfl | hp
    · exact le_refl x
    · exact le_trans hc.1 (ih y hc.2 p hp)

lemma zipConsec_pairwise (l : List ℚ) :
    List.Chain' (· ≤ ·) l →
      (zipConsec l).Pairwise (fun p q => p.2 ≤ q.1 ∧ p.1 ≤ q.1) := by
  induction l with
  | nil => intro _; simp [zipConsec]
  | cons x xs ih =>
    intro hc
    cases xs with
    | nil => simp [zipConsec]
    | cons y l =>
      rw [List.chain'_cons] at hc
      refine List.Pairwise.cons ?_ (ih hc.2)
      intro q hq
      have hy := zipConsec_head_le l y hc.2 q hq
      exact ⟨hy, le_trans hc.1 hy⟩

lemma leadCandidate_nonneg (s : List Silence) : 0 ≤ leadCandidate s := by
  unfold leadCandidate
  cases hs : s.head? with
  | none => exact le_refl 0
  | some f =>
    dsimp only
    split_ifs with h
    · exact le_max_left 0 _
    · exact le_refl 0

lemma tailCandidate_nonneg (s : List Silence) (d : ℚ) :
    0 ≤ tailCandidate s d := by
  unfold tailCandidate
  cases hs : s.getLast? with
  | none => exact le_refl 0
  | some last =>
    dsimp only
    cases he : last.2 with
    | none => exact le_max_left 0 _
    | some e =>
      dsimp only
      split_ifs with h
      · exact le_max_left 0 _
      · exact le_refl 0

lemma clampedLead_nonneg (s : List Silence) (d : ℚ) (hd : 0 ≤ d) :
    0 ≤ clampedLead s d :=
  le_min (leadCandidate_nonneg s) (mul_nonneg (by norm_num) hd)

lemma clampedTail_nonneg (s : List Silence) (d : ℚ) (hd : 0 ≤ d) :
    0 ≤ clampedTail s d :=
  le_min (tailCandidate_nonneg s d) (mul_nonneg (by norm_num) hd)

lemma trimPass_result_spec (s : List Silence) (d : ℚ) (ok : Bool) (hd : 0 ≤ d) :
    0 ≤ ((trimPass s d ok).2).trim_start ∧
    0 ≤ ((trimPass s d ok).2).trim_end ∧
    ((trimPass s d ok).2).new_duration =
      d - ((trimPass s d ok).2).trim_start - ((trimPass s d ok).2).trim_end := by
  have hl := clampedLead_nonneg s d hd
  have ht := clampedTail_nonneg s d hd
  unfold trimPass
  split_ifs <;>
    first
      | exact ⟨le_refl 0, le_refl 0, by ring⟩
      | exact ⟨hl, ht, rfl⟩

/-! ### Claim theorems -/

/-- C7: for every boundary list and total duration at least the 0.5 s
threshold, no segment emitted by detect_scenes_upper_half has length
strictly below 0.5 s (in fact the code never emits a shorter segment for
any duration: candidates below the threshold are filtered out). -/
theorem segments_min_length (bs : List ℚ) (d : ℚ) (hd : 1/2 ≤ d) :
    ∀ p ∈ detect_scenes_segments bs d, 1/2 ≤ p.2 - p.1 := by
  intro p hp
  unfold detect_scenes_segments at hp
  exact of_decide_eq_true (List.mem_filter.mp hp).2

theorem segments_min_length_witness :
    (1 : ℚ)/2 ≤ ((0 : ℚ), (1 : ℚ)).2 - ((0 : ℚ), (1 : ℚ)).1 :=
  segments_min_length [] 1 (by norm_num) (0, 1)
    (by norm_num [detect_scenes_segments, sceneTimes, zipConsec_cons, zipConsec_single])

/-- C1 (amended): for every boundary list that is ascending and lies
within the media's time range (so that 0 :: boundaries ++ [duration] is a
nondecreasing chain), the segments of detect_scenes_upper_half are
pairwise non-overlapping, their start times are nondecreasing, and every
segment is nonempty; but a candidate shorter than 0.5 s is dropped
outright rather than merged, so the segments need not cover the whole of
the time range (see the counterexample). -/
theorem segments_sorted_pairwise (bs : List ℚ) (d : ℚ)
    (h : List.Chain' (· ≤ ·) (sceneTimes bs d)) :
    (detect_scenes_segments bs d).Pairwise
      (fun p q => p.2 ≤ q.1 ∧ p.1 ≤ q.1) ∧
    ∀ p ∈ detect_scenes_segments bs d, p.1 < p.2 := by
  constructor
  · exact (zipConsec_pairwise _ h).filter _
  · intro p hp
    unfold detect_scenes_segments at hp
    have h2 := of_decide_eq_true (List.mem_filter.mp hp).2
    linarith

theorem segments_sorted_pairwise_witness :
    ((0 : ℚ), (1 : ℚ)).1 < ((0 : ℚ), (1 : ℚ)).2 :=
  (segments_sorted_pairwise [1, 2] 3
      (by norm_num [sceneTimes, List.chain'_cons])).2 (0, 1)
    (by norm_num [detect_scenes_segments, sceneTimes, zipConsec_cons, zipConsec_single])

/-- C1 (counterexample): with the single in-range ascending boundary 0.2
and duration 1, the candidate segment from 0 to 0.2 is shorter than 0.5 s
and is dropped, not merged: the returned segments are exactly [(0.2, 1)],
and the time 0.1 of the range [0, 1] is covered by no segment, so the
segments do not partition [0, duration] and time is dropped. -/
theorem segments_drop_short_cex :
    detect_scenes_segments [1/5] 1 = [(1/5, 1)] ∧
    ((0 : ℚ) ≤ 1/10 ∧ (1 : ℚ)/10 ≤ 1) ∧
    coversPoint (detect_scenes_segments [1/5] 1) (1/10) = false := by
  norm_num [detect_scenes_segments, sceneTimes, zipConsec_cons, zipConsec_single,
    coversPoint]

/-- C2: whenever the clamped lead and tail trims would leave less than
0.5 s of audio, the in-place planner reports a zero trim and leaves the
duration unchanged, for any silence distribution; the conversion-pass
transcoder convert_to_mp3_trimmed likewise drops both trims in that
case. -/
theorem safety_veto_zero :
    (∀ (s : List Silence) (d : ℚ) (ok : Bool),
        d - clampedLead s d - clampedTail s d < 1/2 →
        (trimPass s d ok).2 = ⟨0, 0, d, d⟩) ∧
    (∀ duration st et : ℚ, duration - st - et < 1/2 →
        convert_to_mp3_trimmed duration st et = (0, 0, duration)) := by
  constructor
  · intro s d ok h
    unfold trimPass
    split_ifs <;> first | rfl | exact (show False by assumption).elim
  · intro duration st et h
    unfold convert_to_mp3_trimmed
    rw [if_pos (le_of_lt h)]

theorem safety_veto_zero_witness :
    (trimPass [((0 : ℚ), some (1 : ℚ))] 1 true).2 = ⟨0, 0, 1, 1⟩ ∧
    convert_to_mp3_trimmed 1 (2/5) (2/5) = (0, 0, 1) :=
  ⟨safety_veto_zero.1 _ 1 true
      (by norm_num [clampedLead, clampedTail, leadCandidate, tailCandidate]),
   safety_veto_zero.2 1 (2/5) (2/5) (by norm_num)⟩

/-- C9: a clip with an empty silence-interval list is reported untrimmed
with its duration unchanged, and running the pass a second time on the
resulting file again reports a zero trim and the same duration. -/
theorem empty_silence_idempotent (d : ℚ) (ok : Bool) :
    trimPass [] d ok = (d, ⟨0, 0, d, d⟩) ∧
    trimPass [] (trimPass [] d ok).1 ok = (d, ⟨0, 0, d, d⟩) := by
  constructor
  · unfold trimPass; simp
  · unfold trimPass; simp

/-- C8: when the ffmpeg transcode of the trimmed audio fails, the pass
reports a zero trim with the duration unchanged and the original media
file keeps its previous content (the trimmed output only ever exists at a
temporary path, which is removed on failure). -/
theorem transcode_failure_no_change (s : List Silence) (d : ℚ) :
    trimPass s d false = (d, ⟨0, 0, d, d⟩) := by
  unfold trimPass
  split_ifs <;> first | rfl | exact (show False by assumption).elim

/-- C10: when both clamped trims are at most 0.1 s, the in-place pass
applies no trim at all: it reports a zero trim, the duration is unchanged
and the media file is not rewritten. -/
theorem small_trims_discarded (s : List Silence) (d : ℚ) (ok : Bool)
    (h1 : clampedLead s d ≤ 1/10) (h2 : clampedTail s d ≤ 1/10) :
    trimPass s d ok = (d, ⟨0, 0, d, d⟩) := by
  unfold trimPass
  split_ifs with e1 e2 e3 e4
  all_goals try rfl
  all_goals rcases e3 with h | h <;> linarith

theorem small_trims_discarded_witness :
    trimPass [((0 : ℚ), some ((1 : ℚ)/10))] 10 true = (10, ⟨0, 0, 10, 10⟩) :=
  small_trims_discarded _ 10 true
    (by norm_num [clampedLead, leadCandidate])
    (by norm_num [clampedTail, tailCandidate])

/-- C4: one ledger step (plan a trim on the clip's current duration, then
record it) never increases the clip's current duration and never decreases
either cumulative trim, for any clip record of nonnegative duration, any
silence list and any transcode outcome. -/
theorem ledger_monotone (c : ClipRecord) (s : List Silence) (ok : Bool)
    (h : 0 ≤ c.duration) :
    (ledgerStep c s ok).duration ≤ c.duration ∧
    c.trimStartCum ≤ (ledgerStep c s ok).trimStartCum ∧
    c.trimEndCum ≤ (ledgerStep c s ok).trimEndCum := by
  obtain ⟨h1, h2, h3⟩ := trimPass_result_spec s c.duration ok h
  unfold ledgerStep applyPass
  split_ifs with hcond
  · refine ⟨?_, ?_, ?_⟩ <;> simp <;> linarith
  · exact ⟨le_refl _, le_refl _, le_refl _⟩

/-- C3 (counterexample): for a clip of duration 10 whose only silence
interval is open-ended and starts at 0 (silence from end to end), the
in-place pass does trim: it reports a tail trim of 4 s (the 40% clamp of
the 9.9 s candidate) and the duration drops from 10 to 6, so the plan is
not a zero trim and the duration does not stay unchanged. -/
theorem open_silence_trimmed_cex :
    (trimPass [((0 : ℚ), (none : Option ℚ))] 10 true).2 = ⟨0, 4, 10, 6⟩ ∧
    (trimPass [((0 : ℚ), (none : Option ℚ))] 10 true).2.trim_end ≠ 0 ∧
    (trimPass [((0 : ℚ), (none : Option ℚ))] 10 true).2.new_duration ≠
      (trimPass [((0 : ℚ), (none : Option ℚ))] 10 true).2.original_duration := by
  norm_num [trimPass, clampedLead, clampedTail, leadCandidate, tailCandidate,
    min_def, max_def]

/-- C3 (amended): for a clip of nonnegative duration d whose silence list
is a single open-ended interval starting at or near 0, the lead trim is
always 0 (an open end contributes no lead trim), but the tail-trim rule
still applies: either the pass reports no trim at all, or it reports a
tail trim equal to the clamped candidate min(max(0, d - start - 0.1),
0.4 * d) and leaves at least 0.5 s of audio — the clip may well be
trimmed, though never trimmed away entirely. -/
theorem open_silence_lead_zero (s d : ℚ) (hs : s ≤ 1/10) (hd : 0 ≤ d) :
    (trimPass [(s, (none : Option ℚ))] d true).2.trim_start = 0 ∧
    ((trimPass [(s, (none : Option ℚ))] d true).2.trim_end = 0 ∨
      ((trimPass [(s, (none : Option ℚ))] d true).2.trim_end
          = min (max 0 (d - s - 1/10)) (2/5 * d) ∧
        (trimPass [(s, (none : Option ℚ))] d true).2.new_duration
          = d - (trimPass [(s, (none : Option ℚ))] d true).2.trim_end ∧
        1/2 ≤ (trimPass [(s, (none : Option ℚ))] d true).2.new_duration)) := by
  have h0 : leadCandidate [(s, (none : Option ℚ))] = 0 := by
    have hx : ((none : Option ℚ).getD 0 - 1/20 : ℚ) = -(1/20) := by simp
    unfold leadCandidate
    simp only [List.head?_cons]
    split_ifs with h
    all_goals try (rw [hx]; exact max_eq_left (by norm_num))
    all_goals rfl
  have hlc : clampedLead [(s, (none : Option ℚ))] d = 0 := by
    unfold clampedLead
    rw [h0]
    exact min_eq_left (mul_nonneg (by norm_num) hd)
  have htc : clampedTail [(s, (none : Option ℚ))] d
      = min (max 0 (d - s - 1/10)) (2/5 * d) := by
    unfold clampedTail tailCandidate
    simp only [List.getLast?_singleton]
  unfold trimPass
  rw [hlc, htc, if_neg (by simp : ¬([(s, (none : Option ℚ))] = []))]
  split_ifs with hv hor hok
  all_goals try exact ⟨rfl, Or.inl rfl⟩
  all_goals
    refine ⟨rfl, Or.inr ⟨rfl, by ring, ?_⟩⟩
  all_goals
    dsimp only
  all_goals
    linarith [not_lt.mp hv]

theorem open_silence_lead_zero_witness :
    (trimPass [((0 : ℚ), (none : Option ℚ))] 10 true).2.trim_start = 0 :=
  (open_silence_lead_zero 0 10 (by norm_num) (by norm_num)).1

/-- C5 (counterexample): on the Scenario A input (duration 10, silence
intervals (0, 1) and (8.5, 10)), the in-place planner returns a lead trim
of 0.95, not the claimed 0.9 (its lead padding is 0.05, not 0.1), while
the conversion-pass planner — the one whose paddings are 0.1 — returns a
tail trim of 0, not the claimed 1.4, because it never tail-trims when the
last silence interval has a concrete end.  Under neither planner is the
claimed plan (0.9, 1.4) produced. -/
theorem scenario_a_cex :
    (trimPass [((0 : ℚ), some (1 : ℚ)), (17/2, some 10)] 10 true).2.trim_start ≠ 9/10 ∧
    (trimPass [((0 : ℚ), some (1 : ℚ)), (17/2, some 10)] 10 true).2.trim_end = 7/5 ∧
    (convert_to_mp3_trimmed 10
        (convert_plan [0, 17/2] [1, 10] 10).1
        (convert_plan [0, 17/2] [1, 10] 10).2).2.1 ≠ 7/5 := by
  norm_num [trimPass, clampedLead, clampedTail, leadCandidate, tailCandidate,
    convert_plan, convert_to_mp3_trimmed, min_def, max_def, List.cons_ne_nil]

/-- C5 (amended): for every clip whose last silence interval is concrete
with its end within 0.1 s of the duration, the in-place planner's
candidate tail trim is max(0, duration - interval start - 0.1) — the tail
padding is 0.1 s as claimed; in particular, on duration 10 with silences
(0, 1) and (8.5, 10) the in-place pass returns lead trim 0.95 (its lead
padding is 0.05) and tail trim 1.4, with new duration 7.65. -/
theorem tail_formula_concrete :
    (∀ (s : List Silence) (d a e : ℚ), s.getLast? = some (a, some e) →
        d - 1/10 ≤ e → tailCandidate s d = max 0 (d - a - 1/10)) ∧
    (trimPass [((0 : ℚ), some (1 : ℚ)), (17/2, some 10)] 10 true).2 =
      ⟨19/20, 7/5, 10, 153/20⟩ := by
  constructor
  · intro s d a e hl he
    unfold tailCandidate
    rw [hl]
    dsimp only
    rw [if_pos he]
  · norm_num [trimPass, clampedLead, clampedTail, leadCandidate, tailCandidate,
      min_def, max_def, List.cons_ne_nil]

theorem tail_formula_concrete_witness :
    tailCandidate [((17 : ℚ)/2, some (10 : ℚ))] 10 = max 0 (10 - 17/2 - 1/10) :=
  tail_formula_concrete.1 _ 10 (17/2) 10 (by simp) (by norm_num)

/-- C6 (counterexample): the in-place planner does not sort its input.  On
duration 10, the list [(5, 6), (0, 1)] is a permutation of the ascending
list [(0, 1), (5, 6)], yet the planner reports no trim on the former and a
0.95 s lead trim on the latter, so its output is not invariant under
permutation of the silence list. -/
theorem plan_not_permutation_invariant_cex :
    [((5 : ℚ), some (6 : ℚ)), (0, some 1)].Perm
      [((0 : ℚ), some (1 : ℚ)), (5, some 6)] ∧
    List.Chain' (fun a b : Silence => a.1 ≤ b.1)
      [((0 : ℚ), some (1 : ℚ)), (5, some 6)] ∧
    (trimPass [((5 : ℚ), some (6 : ℚ)), (0, some 1)] 10 true).2 ≠
      (trimPass [((0 : ℚ), some (1 : ℚ)), (5, some 6)] 10 true).2 := by
  refine ⟨List.Perm.swap _ _ _, ?_, ?_⟩
  · norm_num [List.chain'_cons]
  · norm_num [trimPass, clampedLead, clampedTail, leadCandidate, tailCandidate,
      min_def, max_def, List.cons_ne_nil]

/-- C6 (amended): the in-place planner reads only the first and the last
interval of the silence list as given (plus emptiness): any two silence
lists with the same head and the same last element produce identical
results, so the plan is invariant exactly under permutations that fix the
first and last elements, not under arbitrary reordering. -/
theorem plan_head_last_determined (l₁ l₂ : List Silence) (d : ℚ) (ok : Bool)
    (hh : l₁.head? = l₂.head?) (hl : l₁.getLast? = l₂.getLast?) :
    trimPass l₁ d ok = trimPass l₂ d ok := by
  by_cases h1 : l₁ = []
  · subst h1
    have h2 : l₂ = [] := by
      rw [← List.head?_eq_none_iff, ← hh]
      rfl
    rw [h2]
  · have h2 : l₂ ≠ [] := by
      intro hnil
      apply h1
      rw [← List.head?_eq_none_iff, hh, hnil]
      rfl
    have hlead : leadCandidate l₁ = leadCandidate l₂ := by
      unfold leadCandidate
      rw [hh]
    have htail : tailCandidate l₁ d = tailCandidate l₂ d := by
      unfold tailCandidate
      rw [hl]
    unfold trimPass clampedLead clampedTail
    rw [hlead, htail, if_neg h1, if_neg h2]

theorem plan_head_last_determined_witness :
    trimPass [((0 : ℚ), some (1 : ℚ)), (9, some (19/2)), (2, some 3)] 10 true =
      trimPass [((0 : ℚ), some (1 : ℚ)), (5, some 6), (2, some 3)] 10 true :=
  plan_head_last_determined _ _ 10 true (by simp) (by simp)

theorem ledger_monotone_witness :
    (ledgerStep ⟨10, 0, 0⟩ [] true).duration ≤ (ClipRecord.mk 10 0 0).duration ∧
    (ClipRecord.mk 10 0 0).trimStartCum ≤ (ledgerStep ⟨10, 0, 0⟩ [] true).trimStartCum ∧
    (ClipRecord.mk 10 0 0).trimEndCum ≤ (ledgerStep ⟨10, 0, 0⟩ [] true).trimEndCum :=
  ledger_monotone ⟨10, 0, 0⟩ [] true (by decide)

end Songyang
